import Mathlib

/-!
Shallow embedding of the flash-recorder native core (src/src-tauri/src/lib.rs)
and proofs about its specification claims.

Conventions of the embedding:
* Rust `f32`/`f64` arithmetic is idealised as exact rational arithmetic (`ℚ`);
  the one genuinely irrational operation, the pointer-path length
  `sqrt(dx*dx+dy*dy)` used by the zoom-window follow scan, is modelled over `ℝ`
  with `Real.sqrt`.
* Rust `u64`/`u32` counters are `ℕ`; `i32` fields are `ℤ` (all claims stay far
  from overflow, so no wrap-around modelling is needed).
* The external encoder process, the filesystem and JSON (de)serialisation are
  external collaborators; they are modelled as explicit state (an association
  list of paths) or as function parameters where only their interface matters.
-/

namespace FlashRecorder

/-! ## Data model (structs from lib.rs) -/

/-- `CaptureRegion` from lib.rs: the requested capture rectangle (i32 fields). -/
structure CaptureRegion where
  x : Int
  y : Int
  width : Int
  height : Int
deriving DecidableEq, Repr

/-- `CursorEventRecord` from lib.rs: one line of `cursor.jsonl`. -/
structure CursorEventRecord where
  kind : String
  offset_ms : Nat
  axn : ℚ
  ayn : ℚ
deriving DecidableEq, Repr

/-- `ZoomFrame` from lib.rs: one resampled frame of the zoom track. -/
structure ZoomFrame where
  time_ms : Nat
  axn : ℚ
  ayn : ℚ
  zoom : ℚ
deriving DecidableEq, Repr

/-- `CameraSegment` from lib.rs (the fields the export filter consumes). -/
structure CameraSegment where
  start_s : ℚ
  end_s : ℚ
  visible : Bool
deriving DecidableEq, Repr

/-! ## Region even-alignment (start_recording, lib.rs lines 1368-1399) -/

/-- The region even-alignment and validation block of `start_recording`
(lib.rs 1368-1389), as a pure function on the requested region.  `%` on `ℤ`
is Euclidean in Lean while Rust truncates, but `x % 2 ≠ 0` detects oddness
identically in both conventions. -/
def alignRegion (r : CaptureRegion) : Except String CaptureRegion :=
  if r.width ≤ 0 ∨ r.height ≤ 0 then .error "invalid_region"
  else
    let x := if r.x % 2 ≠ 0 then r.x + 1 else r.x
    let w := if r.x % 2 ≠ 0 then r.width - 1 else r.width
    let y := if r.y % 2 ≠ 0 then r.y + 1 else r.y
    let h := if r.y % 2 ≠ 0 then r.height - 1 else r.height
    let w2 := if w % 2 ≠ 0 then w - 1 else w
    let h2 := if h % 2 ≠ 0 then h - 1 else h
    if w2 ≤ 0 ∨ h2 ≤ 0 then .error "invalid_region"
    else .ok ⟨x, y, w2, h2⟩

/-- The claim's description of the alignment (spec wording, for the
refinement comparison with `alignRegion`): bump odd origins, shrink the
matching dimension, then floor both dimensions to even. -/
def alignRegionSpec (r : CaptureRegion) : CaptureRegion :=
  let x := if r.x % 2 ≠ 0 then r.x + 1 else r.x
  let w := if r.x % 2 ≠ 0 then r.width - 1 else r.width
  let y := if r.y % 2 ≠ 0 then r.y + 1 else r.y
  let h := if r.y % 2 ≠ 0 then r.height - 1 else r.height
  { x := x, y := y, width := w - w % 2, height := h - h % 2 }

/-- The gdigrab argv fragment that `start_recording` emits for an aligned
region (lib.rs 1390-1399). -/
def regionArgs (r : CaptureRegion) : List String :=
  ["-offset_x", toString r.x, "-offset_y", toString r.y,
   "-video_size", toString r.width ++ "x" ++ toString r.height,
   "-i", "desktop"]

/-! ## Camera enable expression (derive_camera_enable, lib.rs 885-911) -/

/-- Decimal rendering of a segment boundary.  The source formats an `f64`
with Rust's `Display`; every boundary exercised by the claims is integral,
where `Display` prints the plain integer. -/
def fmtTime (q : ℚ) : String :=
  if q.den = 1 then toString q.num else toString q

/-- The expression-building loop of `derive_camera_enable` (lib.rs 891-911),
on the parsed segment list (reading and deserialising `camera_track.json`
is the caller's context). -/
def deriveCameraEnable (segs : List CameraSegment) : Option String :=
  if segs = [] then none
  else
    let expr := segs.foldl
      (fun expr seg =>
        if !seg.visible then expr
        else
          let part := "between(t," ++ fmtTime seg.start_s ++ ","
            ++ fmtTime seg.end_s ++ ")"
          if expr = "" then part else "(" ++ expr ++ ")+(" ++ part ++ ")")
      ""
    if expr = "" then none else some expr

/-- Modelled from the spec: the bundled encoder's filter engine (out of
scope in src/, §6 of the spec) evaluates `between(t,a,b)` as 1 when
`a ≤ t ≤ b` and 0 otherwise, and applies an overlay carrying
`:enable=<expr>` only when the expression is nonzero.  This mirrors the
sum-of-between expression emitted by `deriveCameraEnable`. -/
def cameraEnableVal (segs : List CameraSegment) (t : ℚ) : ℚ :=
  (segs.filter (fun s => s.visible)).foldl
    (fun acc s => acc + (if s.start_s ≤ t ∧ t ≤ s.end_s then 1 else 0)) 0

/-! ## Export manager (cancel_export, run_export_job, export_worker_async) -/

/-- `ExportStatus` from lib.rs (progress is an `f32` in `[0,1]`, idealised
as `ℚ`). -/
structure ExportStatus where
  job_id : String
  state : String
  progress : ℚ
  error : Option String
  output_path : Option String
deriving DecidableEq, Repr

/-- The mutable cell guarded by the export mutex: the status map and the
cancellation map of `ExportManager` (the queue plays no role in the
cancellation claims).  The two `HashMap`s are modelled as association
lists with key-unique update. -/
structure ExportManager where
  statuses : List (String × ExportStatus)
  cancellations : List (String × Bool)
deriving DecidableEq, Repr

/-- `HashMap::insert`: overwrite the binding for a key. -/
def upsert {β : Type} (m : List (String × β)) (k : String) (v : β) :
    List (String × β) :=
  (k, v) :: m.filter (fun p => p.1 ≠ k)

/-- `HashMap::get`: the value bound to a key. -/
def lookupKey {β : Type} (m : List (String × β)) (k : String) : Option β :=
  (m.find? (fun p => p.1 = k)).map (fun p => p.2)

/-- `HashMap::get_mut` followed by a field write: update the value bound to
`k`, leave the map untouched when the key is absent. -/
def updateKey {β : Type} : List (String × β) → String → (β → β) →
    List (String × β)
  | [], _, _ => []
  | p :: rest, k, f =>
      (if p.1 = k then (p.1, f p.2) else p) :: updateKey rest k f

/-- `HashMap::remove`. -/
def removeKey {β : Type} (m : List (String × β)) (k : String) :
    List (String × β) :=
  m.filter (fun p => p.1 ≠ k)

/-- `cancel_export` (lib.rs 2427-2434): insert the cancellation flag, flip
the stored state to "cancelled" when a status entry exists, return `Ok(())`.
The lock acquisition always succeeds in this sequential model. -/
def cancelExport (m : ExportManager) (job_id : String) :
    ExportManager × Except String Unit :=
  let m1 : ExportManager :=
    { m with cancellations := upsert m.cancellations job_id true }
  let m2 : ExportManager :=
    match lookupKey m1.statuses job_id with
    | some _ =>
        { m1 with statuses :=
            updateKey m1.statuses job_id (fun st => { st with state := "cancelled" }) }
    | none => m1
  (m2, .ok ())

/-- One iteration's observations of the polling loop of `run_export_job`
(lib.rs 1188-1224): the cancellation flag read under the lock, and what
`try_wait` reports (`some (success, stderr)` once the child exited). -/
structure PollObs where
  cancelled : Bool
  exited : Option (Bool × String)
deriving Repr

/-- Outcome of the polling loop: the returned `Result` and whether the
child was killed. -/
structure LoopOutcome where
  result : Except String Unit
  killed : Bool
deriving Repr

/-- The last 12 lines of the captured stderr (lib.rs 1211-1219); Rust's
`lines()` is modelled as splitting on a newline. -/
def stderrTail (s : String) : String :=
  String.intercalate "\n" (((s.splitOn "\n").reverse.take 12).reverse)

/-- What `run_export_job` returns once `try_wait` reports an exit
(lib.rs 1203-1221). -/
def exitResult (success : Bool) (stderrOut : String) : Except String Unit :=
  if success then .ok ()
  else if stderrOut.trim = "" then .error "export_failed"
  else .error ("export_failed:\n" ++ stderrTail stderrOut)

/-- The 120 ms cancellation poll interval of `run_export_job`
(lib.rs 1223). -/
def exportPollMs : Nat := 120

/-- The cancellation-polling loop of `run_export_job` (lib.rs 1188-1224)
over a finite trace of observations; `none` when the trace ends with the
child still running. -/
def exportLoop : List PollObs → Option LoopOutcome
  | [] => none
  | ob :: rest =>
      if ob.cancelled then some ⟨.error "export_cancelled", true⟩
      else
        match ob.exited with
        | some (success, stderrOut) => some ⟨exitResult success stderrOut, false⟩
        | none => exportLoop rest

/-- How `export_worker_async` turns the job result into the final status
(lib.rs 993-1006): `completed` with progress 1 on success, `failed`
carrying the error and the last recorded progress otherwise. -/
def workerFinalize (st : ExportStatus) (result : Except String Unit) :
    ExportStatus :=
  { st with
    state := (match result with | .ok _ => "completed" | .error _ => "failed"),
    progress := (match result with | .ok _ => 1 | .error _ => st.progress),
    error := (match result with | .ok _ => none | .error e => some e) }

/-- After the job, the worker stores the final status and drops the
cancellation flag (lib.rs 1007-1010). -/
def workerRecord (m : ExportManager) (job_id : String) (st : ExportStatus) :
    ExportManager :=
  { m with statuses := upsert m.statuses job_id st,
           cancellations := removeKey m.cancellations job_id }

/-! ## Zoom track builder (ensure_zoom_track, lib.rs 2035-2226)

The builder reads the cursor log, coalesces click windows, scans the pointer
path for the follow phase, and resamples frames at 30 fps.  It is embedded
here on the parsed event list; the filesystem shell around it is modelled
separately below. -/

/-- `ZoomSettings` from lib.rs with its `Default` impl values. -/
structure ZoomSettings where
  max_zoom : ℚ
  ramp_in_s : ℚ
  ramp_out_s : ℚ
  sample_ms : Nat
  follow_threshold_px : ℚ
deriving DecidableEq, Repr

/-- `ZoomSettings::default()` (lib.rs 331-341). -/
def zoomSettingsDefault : ZoomSettings :=
  { max_zoom := 2, ramp_in_s := 1/2, ramp_out_s := 1/2,
    sample_ms := 120, follow_threshold_px := 160 }

/-- Frame timestamp at index `i`: `((i as f64) * (1000.0 / fps)).round()`
(lib.rs 2086 and 2176). -/
def frameTimeMs (fps : Nat) (i : Nat) : Nat :=
  (round ((i : ℚ) * (1000 / (fps : ℚ)))).toNat

/-- Pair every `down` event with the events that follow it, in log order.
This packages the source's `downs` index list (lib.rs 2097-2102) together
with the `events.iter().skip(di + 1)` suffixes the window builder scans. -/
def downsTail : List CursorEventRecord →
    List (CursorEventRecord × List CursorEventRecord)
  | [] => []
  | ev :: rest =>
      (if ev.kind = "down" then [(ev, rest)] else []) ++ downsTail rest

/-- State of the pointer-path scan (lib.rs 2121-2144): accumulated path
length in device pixels, last seen move position, and the follow-phase
start once the threshold is crossed. -/
structure FollowState where
  path : ℝ
  lax : ℚ
  lay : ℚ
  follow : Option (Nat × ℚ × ℚ)

/-- One event of the path scan (lib.rs 2127-2144): moves accumulate
`sqrt(dx²+dy²)` in device pixels and latch the follow start at the first
move whose cumulative path reaches 160 px; other kinds are skipped. -/
noncomputable def followStep (rw rh : ℚ) (st : FollowState)
    (ev : CursorEventRecord) : FollowState :=
  if ev.kind = "move" then
    let dx : ℝ := ((ev.axn - st.lax : ℚ) : ℝ) * (rw : ℝ)
    let dy : ℝ := ((ev.ayn - st.lay : ℚ) : ℝ) * (rh : ℝ)
    let p : ℝ := st.path + Real.sqrt (dx * dx + dy * dy)
    { path := p, lax := ev.axn, lay := ev.ayn,
      follow := if st.follow = none ∧ (160 : ℝ) ≤ p
        then some (ev.offset_ms, ev.axn, ev.ayn) else st.follow }
  else st

/-- The full path scan over the in-window suffix, starting from the
triggering down's position with zero accumulated path. -/
noncomputable def followScan (rw rh : ℚ) (d : CursorEventRecord)
    (evs : List CursorEventRecord) : FollowState :=
  evs.foldl (followStep rw rh) ⟨0, d.axn, d.ayn, none⟩

/-- One pan anchor `(t, axn, ayn)` (lib.rs 2145). -/
structure Anchor where
  t : ℚ
  ax : ℚ
  ay : ℚ
deriving DecidableEq, Repr

/-- The ≥120 ms move resampling loop after the follow start
(lib.rs 2150-2163).  `count` is the number of anchors already pushed; the
source stops once the anchor list exceeds 4000 entries. -/
def sampleGo (count : Nat) (next : Nat) :
    List CursorEventRecord → List Anchor
  | [] => []
  | ev :: rest =>
      if ev.kind = "move" ∧ next ≤ ev.offset_ms then
        ⟨(ev.offset_ms : ℚ) / 1000, ev.axn, ev.ayn⟩ ::
          (if 4000 < count + 1 then []
           else sampleGo (count + 1) (ev.offset_ms + 120) rest)
      else sampleGo count next rest

/-- A coalesced zoom window: start, end, pan anchors (lib.rs 2103). -/
structure Window where
  s : ℚ
  e : ℚ
  anchors : List Anchor
deriving DecidableEq, Repr

/-- Build one window's anchor list (lib.rs 2121-2167): the triggering
down's point at `s`; when the follow threshold was crossed, the follow
start and the resampled moves; finally the last anchor's point again at
`e`.  The loop's `break` on `t > e` is the `takeWhile` prefix. -/
noncomputable def mkWindow (rw rh : ℚ) (d : CursorEventRecord)
    (tl : List CursorEventRecord) (s e : ℚ) : Window :=
  let scanned := tl.takeWhile (fun ev => ((ev.offset_ms : ℚ) / 1000) ≤ e)
  let a0 : Anchor := ⟨s, d.axn, d.ayn⟩
  let anchors1 : List Anchor :=
    match (followScan rw rh d scanned).follow with
    | none => [a0]
    | some (ms, fax, fay) =>
        a0 :: ⟨(ms : ℚ) / 1000, fax, fay⟩ :: sampleGo 2 (ms + 120) scanned
  let last := anchors1.getLast?.getD a0
  { s := s, e := e, anchors := anchors1 ++ [⟨e, last.ax, last.ay⟩] }

/-- Window coalescing, inner loop (lib.rs 2110-2120): consume subsequent
downs while they fall inside the current window, pushing the end to
`down + 5 s`; a down beyond the end closes the window and opens the next
one. -/
noncomputable def coalesceGo (rw rh : ℚ) (d : CursorEventRecord)
    (tl : List CursorEventRecord) (s e : ℚ) :
    List (CursorEventRecord × List CursorEventRecord) → List Window
  | [] => [mkWindow rw rh d tl s e]
  | (d2, t2) :: rest =>
      if ((d2.offset_ms : ℚ) / 1000) ≤ e then
        coalesceGo rw rh d tl s ((d2.offset_ms : ℚ) / 1000 + 5) rest
      else
        mkWindow rw rh d tl s e ::
          coalesceGo rw rh d2 t2 ((d2.offset_ms : ℚ) / 1000)
            ((d2.offset_ms : ℚ) / 1000 + 5) rest

/-- Window coalescing over all downs (lib.rs 2104-2172).  The source's
`break` after the 100th pushed window is the `take 100` at the use site. -/
noncomputable def coalesceWindows (rw rh : ℚ) :
    List (CursorEventRecord × List CursorEventRecord) → List Window
  | [] => []
  | (d, tl) :: rest =>
      coalesceGo rw rh d tl ((d.offset_ms : ℚ) / 1000)
        ((d.offset_ms : ℚ) / 1000 + 5) rest

/-- Per-frame zoom inside a window (lib.rs 2185-2194): ease-out cubic on
`[s, s+0.5)`, the mirrored ease on `(e-0.5, e]`, flat `max_zoom = 2`
between. -/
def easeZoom (s e t : ℚ) : ℚ :=
  let ramp : ℚ := 1/2
  if s ≤ t ∧ t < s + ramp then
    let u := max 0 (min 1 ((t - s) / ramp))
    1 + (2 - 1) * (1 - (1 - u)^3)
  else if e - ramp < t ∧ t ≤ e then
    let u := max 0 (min 1 ((e - t) / ramp))
    1 + (2 - 1) * (1 - (1 - u)^3)
  else 2

/-- The anchor interpolation loop (lib.rs 2195-2210): walk consecutive
anchor pairs; on the containing pair, linearly interpolate; past a pair,
carry its right endpoint; before the first pair, keep `cur`. -/
def interpGo (t : ℚ) (cur : ℚ × ℚ) : List Anchor → ℚ × ℚ
  | a0 :: a1 :: rest =>
      if a0.t ≤ t ∧ t ≤ a1.t then
        let dt := max (a1.t - a0.t) (1/1000)
        let u := max 0 (min 1 ((t - a0.t) / dt))
        (a0.ax * (1 - u) + a1.ax * u, a0.ay * (1 - u) + a1.ay * u)
      else if a1.t < t then interpGo t (a1.ax, a1.ay) (a1 :: rest)
      else interpGo t cur (a1 :: rest)
  | _ => cur

/-- Interpolated pan centre over a window's anchors, seeded with the first
anchor's point (lib.rs 2195-2196). -/
def interpAnchors (t : ℚ) (anchors : List Anchor) : ℚ × ℚ :=
  match anchors with
  | [] => (1/2, 1/2)
  | a :: _ => interpGo t (a.ax, a.ay) anchors

/-- One generated frame at time `t` (lib.rs 2178-2214): defaults
`(0.5, 0.5, zoom 1)` outside every window; inside, the first window
containing `t` supplies the ease zoom and the interpolated centre. -/
def frameAt (wins : List Window) (t : ℚ) : ℚ × ℚ × ℚ :=
  match wins.find? (fun w => decide (w.s ≤ t ∧ t ≤ w.e)) with
  | none => (1/2, 1/2, 1)
  | some w => ((interpAnchors t w.anchors).1, (interpAnchors t w.anchors).2,
      easeZoom w.s w.e t)

/-- The flat track emitted when the cursor log parses to no events
(lib.rs 2083-2095): `(duration_ms / 1000) * fps + 1` frames, all with
zoom 1 and centre `(0.5, 0.5)`. -/
def flatFrames (duration_ms : Nat) : List ZoomFrame :=
  (List.range ((duration_ms / 1000) * 30 + 1)).map
    (fun i => ⟨frameTimeMs 30 i, 1/2, 1/2, 1⟩)

/-- The resampled frames when events exist (lib.rs 2173-2221):
`⌈duration_ms / (1000/fps)⌉ + 1` frames over the coalesced windows
(capped at 100). -/
noncomputable def windowedFrames (rw rh : ℚ) (duration_ms : Nat)
    (evs : List CursorEventRecord) : List ZoomFrame :=
  let wins := (coalesceWindows rw rh (downsTail evs)).take 100
  let total := (⌈(duration_ms : ℚ) / (1000 / 30)⌉).toNat
  (List.range (total + 1)).map (fun i =>
    let t_ms := frameTimeMs 30 i
    let c := frameAt wins ((t_ms : ℚ) / 1000)
    ⟨t_ms, c.1, c.2.1, c.2.2⟩)

/-- The frame list `ensure_zoom_track` builds from the parsed events: the
flat track when the log is empty, the windowed resampling otherwise
(lib.rs 2083 and 2097-2221). -/
noncomputable def buildZoomTrackFrames (rw rh : ℚ) (duration_ms : Nat)
    (evs : List CursorEventRecord) : List ZoomFrame :=
  if evs = [] then flatFrames duration_ms
  else windowedFrames rw rh duration_ms evs

/-- `ZoomTrack` from lib.rs. -/
structure ZoomTrack where
  fps : Nat
  frames : List ZoomFrame
  settings : Option ZoomSettings
deriving DecidableEq, Repr

/-- The track document `ensure_zoom_track` persists (lib.rs 2092 and
2222): fixed 30 fps and the default settings in both branches. -/
noncomputable def buildZoomTrack (rw rh : ℚ) (duration_ms : Nat)
    (evs : List CursorEventRecord) : ZoomTrack :=
  { fps := 30, frames := buildZoomTrackFrames rw rh duration_ms evs,
    settings := some zoomSettingsDefault }

/-! ## Filter graph synthesizer (build_export_filter, lib.rs 535-770)

`f32` geometry is idealised as `ℚ`; every place the source formats a float
with Rust's `Display` goes through the abstract renderer `fmtF`, since that
rendering is Rust-standard-library behaviour, not repository code.  `i32`
division truncates toward zero, hence `Int.tdiv`. -/

/-- Rust `i32` division (truncation toward zero). -/
def i32div (a b : Int) : Int := Int.tdiv a b

/-- `aspect_ratio` (lib.rs 535-541). -/
def aspectOf (aspect : String) : ℚ :=
  if aspect = "1:1" then 1
  else if aspect = "9:16" then 9 / 16
  else 16 / 9

/-- `evenize` (lib.rs 543-549). -/
def evenize (value : Int) : Int :=
  if value % 2 = 0 then value else value - 1

/-- Value of one hexadecimal digit, `none` on a non-digit. -/
def hexDigitVal (c : Char) : Option Nat :=
  if '0' ≤ c ∧ c ≤ '9' then some (c.toNat - '0'.toNat)
  else if 'a' ≤ c ∧ c ≤ 'f' then some (c.toNat - 'a'.toNat + 10)
  else if 'A' ≤ c ∧ c ≤ 'F' then some (c.toNat - 'A'.toNat + 10)
  else none

/-- Two hex digits as a channel value; 0 when the pair fails to parse
(`from_str_radix(..).unwrap_or(0)`). -/
def hexPair (c1 c2 : Char) : Int :=
  match hexDigitVal c1, hexDigitVal c2 with
  | some a, some b => (a * 16 + b : Nat)
  | _, _ => 0

/-- `parse_hex_color` (lib.rs 551-560): strip leading `#`, demand six hex
digits, black on any failure. -/
def parseHexColor (value : String) : Int × Int × Int :=
  let hex := value.toList.dropWhile (fun c => c = '#')
  match hex with
  | [c1, c2, c3, c4, c5, c6] =>
      (hexPair c1 c2, hexPair c3 c4, hexPair c5 c6)
  | _ => (0, 0, 0)

/-- The subset of `EditState` (lib.rs 134-176) that the export filter
consumes. -/
structure EditState where
  aspect : String
  padding : Nat
  radius : Nat
  shadow : Nat
  camera_size : Nat
  camera_shape : String
  camera_shadow : Nat
  camera_mirror : Bool
  background_type : String
  background_preset : Nat
  camera_position : String
deriving DecidableEq, Repr

/-- `ExportProfile` (lib.rs 211-218). -/
structure ExportProfile where
  format : String
  width : Nat
  height : Nat
  fps : Nat
  bitrate_kbps : Nat
deriving DecidableEq, Repr

/-- `background_source` (lib.rs 562-606): three-stop gradient or two-stop
wallpaper `geq` source, preset tables indexed modulo their length. -/
def backgroundSource (fmtF : ℚ → String) (es : EditState)
    (width height : Int) (fps : Nat) : String :=
  let gradients : List (String × String × String × ℚ) :=
    [("#6ee7ff", "#a855f7", "#f97316", 1/2),
     ("#0f172a", "#1e40af", "#38bdf8", 55/100),
     ("#111827", "#7c3aed", "#ec4899", 6/10),
     ("#0b1020", "#0f766e", "#22d3ee", 6/10)]
  let wallpapers : List (String × String) :=
    [("#0f172a", "#1f2937"), ("#0b1020", "#1f1b3a"),
     ("#1f2937", "#0f172a"), ("#0a0f1f", "#0b1020")]
  let index := es.background_preset
  let t := "((X/max(W-1,1))+(Y/max(H-1,1)))/2"
  if es.background_type = "wallpaper" then
    let w := wallpapers.get! (index % wallpapers.length)
    let s := parseHexColor w.1
    let e := parseHexColor w.2
    let r := toString s.1 ++ "+(" ++ toString e.1 ++ "-" ++ toString s.1
      ++ ")*" ++ t
    let g := toString s.2.1 ++ "+(" ++ toString e.2.1 ++ "-" ++ toString s.2.1
      ++ ")*" ++ t
    let b := toString s.2.2 ++ "+(" ++ toString e.2.2 ++ "-" ++ toString s.2.2
      ++ ")*" ++ t
    "nullsrc=s=" ++ toString width ++ "x" ++ toString height ++ ":r="
      ++ toString fps ++ ",format=rgba,geq=r='" ++ r ++ "':g='" ++ g
      ++ "':b='" ++ b ++ "':a='255'"
  else
    let gr := gradients.get! (index % gradients.length)
    let s := parseHexColor gr.1
    let mcol := parseHexColor gr.2.1
    let e := parseHexColor gr.2.2.1
    let m := fmtF gr.2.2.2
    let mk := fun (sc mc ec : Int) =>
      "if(lte(" ++ t ++ "," ++ m ++ ")," ++ toString sc ++ "+("
        ++ toString mc ++ "-" ++ toString sc ++ ")*" ++ t ++ "/" ++ m ++ ","
        ++ toString mc ++ "+(" ++ toString ec ++ "-" ++ toString mc ++ ")*("
        ++ t ++ "-" ++ m ++ ")/(1-" ++ m ++ "))"
    let r := mk s.1 mcol.1 e.1
    let g := mk s.2.1 mcol.2.1 e.2.1
    let b := mk s.2.2 mcol.2.2 e.2.2
    "nullsrc=s=" ++ toString width ++ "x" ++ toString height ++ ":r="
      ++ toString fps ++ ",format=rgba,geq=r='" ++ r ++ "':g='" ++ g
      ++ "':b='" ++ b ++ "':a='255'"

/-- `rounded_alpha_expr` (lib.rs 608-615). -/
def roundedAlphaExpr (radius : Int) : String :=
  let r := toString radius
  let r2 := toString (radius * radius)
  "if(lte(X," ++ r ++ ")*lte(Y," ++ r ++ ")*gt(pow(X-" ++ r ++ ",2)+pow(Y-"
    ++ r ++ ",2)," ++ r2 ++ "),0,if(lte(W-X," ++ r ++ ")*lte(Y," ++ r
    ++ ")*gt(pow(W-X-" ++ r ++ ",2)+pow(Y-" ++ r ++ ",2)," ++ r2
    ++ "),0,if(lte(X," ++ r ++ ")*lte(H-Y," ++ r ++ ")*gt(pow(X-" ++ r
    ++ ",2)+pow(H-Y-" ++ r ++ ",2)," ++ r2 ++ "),0,if(lte(W-X," ++ r
    ++ ")*lte(H-Y," ++ r ++ ")*gt(pow(W-X-" ++ r ++ ",2)+pow(H-Y-" ++ r
    ++ ",2)," ++ r2 ++ "),0,255))))"

/-- The two final camera compositing stages of `build_export_filter`
(lib.rs 747-769): with a positive camera shadow the blurred copy and the
camera are overlaid separately, both carrying the camera enable
expression; otherwise a single overlay carries it. -/
def cameraOverlaySection (fmtF : ℚ → String) (base camera_rounded : String)
    (camera_shadow camera_shadow_blur : Int) (camera_shadow_alpha : ℚ)
    (camera_shadow_offset camera_x camera_y : Int)
    (camera_enable : Option String) : String :=
  let enableStr :=
    match camera_enable with
    | some e => ":enable=" ++ e
    | none => ""
  if 0 < camera_shadow then
    base ++ ";" ++ camera_rounded
      ++ ",split=2[cam][camshadow];[camshadow]boxblur="
      ++ toString camera_shadow_blur ++ ":1,colorchannelmixer=aa="
      ++ fmtF camera_shadow_alpha ++ "[camshadow];[base][camshadow]overlay=x="
      ++ toString (camera_x + camera_shadow_offset) ++ ":y="
      ++ toString (camera_y + camera_shadow_offset) ++ ":shortest=1"
      ++ enableStr ++ "[bg2];[bg2][cam]overlay=x=" ++ toString camera_x
      ++ ":y=" ++ toString camera_y ++ ":shortest=1" ++ enableStr ++ "[v]"
  else
    base ++ ";" ++ camera_rounded ++ "[cam];[base][cam]overlay=x="
      ++ toString camera_x ++ ":y=" ++ toString camera_y ++ ":shortest=1"
      ++ enableStr ++ "[v]"

/-- `build_export_filter` (lib.rs 617-770).  The `is_portrait_split` flag
is the source's constant `false`, so only its else-branch is embedded. -/
def buildExportFilter (fmtF : ℚ → String) (es : EditState)
    (profile : ExportProfile) (has_camera : Bool)
    (zoom_override : Option (String × String × String))
    (camera_enable : Option String) (clip_select : Option String) : String :=
  let output_w : Int := profile.width
  let output_h : Int := profile.height
  let aspect := aspectOf es.aspect
  let frame_w0 : ℚ := output_w
  let frame_h0 : ℚ := frame_w0 / aspect
  let frame_h : ℚ := if output_h < frame_h0 then output_h else frame_h0
  let frame_w : ℚ := if output_h < frame_h0 then frame_h * aspect else frame_w0
  let padding : Int := es.padding
  let inner_w := evenize (max (round frame_w - padding * 2) 2)
  let inner_h := evenize (max (round frame_h - padding * 2) 2)
  let pos_x := evenize (i32div (output_w - inner_w) 2)
  let pos_y := evenize (i32div (output_h - inner_h) 2)
  let radius : Int := min (es.radius : Int) (i32div (min inner_w inner_h) 2)
  let shadow : Int := es.shadow
  let shadow_blur := max (i32div shadow 4) 1
  let shadow_alpha : ℚ := min (max ((shadow : ℚ) / 120) 0) (6/10)
  let shadow_offset := max (i32div shadow 6) 0
  let bg_source := backgroundSource fmtF es output_w output_h profile.fps
  let margin_lr_169 : ℚ := 6/100
  let margin_tb_916 : ℚ := 36/100
  let margin_tb_11 : ℚ := 24/100
  let target_w : Int :=
    if es.aspect = "16:9" then
      max (evenize (round ((inner_w : ℚ) * (1 - margin_lr_169)))) 2
    else max inner_w 2
  let target_h : Int :=
    if es.aspect = "1:1" then
      max (evenize (round ((inner_h : ℚ) * (1 - margin_tb_11)))) 2
    else if es.aspect = "9:16" then
      max (evenize (round ((inner_h : ℚ) * (1 - margin_tb_916)))) 2
    else max inner_h 2
  let super_w := evenize (max (target_w * 2) 2)
  let super_h := evenize (max (target_h * 2) 2)
  let base :=
    match zoom_override with
    | some (z, x, y) =>
        let s := bg_source ++ "[bg];[0:v]scale=" ++ toString super_w ++ ":"
          ++ toString super_h
          ++ ":force_original_aspect_ratio=decrease,format=rgba,zoompan=z='"
          ++ z ++ "':x='" ++ x ++ "':y='" ++ y ++ "':d=1:s="
          ++ toString target_w ++ "x" ++ toString target_h ++ ":fps="
          ++ toString profile.fps
        match clip_select with
        | some expr => s ++ ",select='" ++ expr ++ "',setpts=N/("
            ++ toString profile.fps ++ "*TB)"
        | none => s
    | none =>
        let s := bg_source ++ "[bg];[0:v]scale=" ++ toString target_w ++ ":"
          ++ toString target_h
          ++ ":force_original_aspect_ratio=decrease,format=rgba,fps="
          ++ toString profile.fps
        match clip_select with
        | some expr => s ++ ",select='" ++ expr ++ "',setpts=N/("
            ++ toString profile.fps ++ "*TB)"
        | none => s
  let rounded :=
    if 0 < radius then
      base ++ ",geq=r='r(X,Y)':g='g(X,Y)':b='b(X,Y)':a='"
        ++ roundedAlphaExpr radius ++ "'"
    else base
  let base_label := if has_camera then "base" else "v"
  let fg_x := toString pos_x ++ "+(" ++ toString inner_w ++ "-overlay_w)/2"
  let fg_y := toString pos_y ++ "+(" ++ toString inner_h ++ "-overlay_h)/2"
  let base :=
    if 0 < shadow then
      rounded ++ ",split=2[fg][shadow];[shadow]boxblur="
        ++ toString shadow_blur ++ ":1,colorchannelmixer=aa="
        ++ fmtF shadow_alpha ++ "[shadow];[bg][shadow]overlay=x="
        ++ (fg_x ++ "+" ++ toString shadow_offset) ++ ":y="
        ++ (fg_y ++ "+" ++ toString shadow_offset)
        ++ ":shortest=1[bg2];[bg2][fg]overlay=x=" ++ fg_x ++ ":y=" ++ fg_y
        ++ ":shortest=1[" ++ base_label ++ "]"
    else
      rounded ++ "[fg];[bg][fg]overlay=x=" ++ fg_x ++ ":y=" ++ fg_y
        ++ ":shortest=1[" ++ base_label ++ "]"
  if !has_camera then base
  else
    let camera_size : Int :=
      if es.aspect = "9:16" then evenize (max (es.camera_size : Int) 2)
      else max (evenize (round ((inner_w : ℚ) * (10/100)))) 2
    let offset : Int := if es.aspect = "9:16" then 16 else 12
    let camera_x : Int :=
      if es.camera_position = "top_left" then offset
      else if es.camera_position = "top_right" then
        max (output_w - camera_size - offset) 0
      else if es.camera_position = "bottom_right" then
        max (output_w - camera_size - offset) 0
      else offset
    let camera_y : Int :=
      if es.camera_position = "top_left" then offset
      else if es.camera_position = "top_right" then offset
      else max (output_h - camera_size - offset) 0
    let camera_radius : Int :=
      min
        (if es.camera_shape = "circle" then i32div camera_size 2
         else if es.camera_shape = "rounded" then
           evenize (max (i32div inner_w 24) 4)
         else evenize (max (i32div inner_w 64) 2))
        (i32div camera_size 2)
    let camera_shadow : Int := es.camera_shadow
    let camera_shadow_blur := max (i32div camera_shadow 4) 1
    let camera_shadow_alpha : ℚ :=
      min (max ((camera_shadow : ℚ) / 120) 0) (6/10)
    let camera_shadow_offset := max (i32div camera_shadow 6) 0
    let mirror := if es.camera_mirror then "hflip," else ""
    let camera_base := "[1:v]" ++ mirror ++ "scale=" ++ toString camera_size
      ++ ":" ++ toString camera_size
      ++ ":force_original_aspect_ratio=increase,crop=" ++ toString camera_size
      ++ ":" ++ toString camera_size ++ ",format=rgba"
    let camera_rounded :=
      if 0 < camera_radius then
        camera_base ++ ",geq=r='r(X,Y)':g='g(X,Y)':b='b(X,Y)':a='"
          ++ roundedAlphaExpr camera_radius ++ "'"
      else camera_base
    cameraOverlaySection fmtF base camera_rounded camera_shadow
      camera_shadow_blur camera_shadow_alpha camera_shadow_offset
      camera_x camera_y camera_enable

/-! ## ensure_zoom_track filesystem shell (lib.rs 2035-2096, 2222-2226)

The filesystem is an association list of absolute paths (component lists)
to file contents; JSON (de)serialisation and the encoder's duration probe
are external collaborators passed as parameters. -/

/-- An absolute path as its component list. -/
abbrev FsPath := List String

/-- The filesystem snapshot: path ↦ content. -/
abbrev FS := List (FsPath × String)

/-- Content of a file, `none` when absent. -/
def fsRead (fs : FS) (p : FsPath) : Option String :=
  (fs.find? (fun pr => pr.1 = p)).map (fun pr => pr.2)

/-- `Path::exists`. -/
def fsExists (fs : FS) (p : FsPath) : Bool :=
  (fsRead fs p).isSome

/-- `fs::write`: create or overwrite. -/
def fsWrite (fs : FS) (p : FsPath) (c : String) : FS :=
  (p, c) :: fs.filter (fun pr => pr.1 ≠ p)

/-- `Path::parent`. -/
def parentOf (p : FsPath) : Option FsPath :=
  if p = [] then none else some p.dropLast

/-- `Rect` from lib.rs. -/
structure Rect where
  x : Int
  y : Int
  width : Int
  height : Int
deriving DecidableEq, Repr

/-- `CaptureMeta` from lib.rs. -/
structure CaptureMeta where
  mode : String
  rect : Rect
  started_at_ms : Nat
deriving DecidableEq, Repr

/-- Result of one `ensure_zoom_track` call: the returned path or error,
the filesystem afterwards, and the files whose contents were read. -/
structure EnsureOutcome where
  res : Except String FsPath
  fs : FS
  reads : List FsPath

/-- The build-and-write branch of `ensure_zoom_track`
(lib.rs 2044-2096 and 2222-2226): locate the cursor log (directly or by
the `read_dir` fallback scan, taken in snapshot order), require and parse
`capture.json`, parse the events line by line, build the track and persist
it as `zoom_track.json`. -/
noncomputable def buildZoomTrackFile (parseMeta : String → Option CaptureMeta)
    (parseEvent : String → Option CursorEventRecord)
    (serialize : ZoomTrack → String) (dur : Option Nat)
    (fs : FS) (dir : FsPath) : EnsureOutcome :=
  let path := dir ++ ["zoom_track.json"]
  let meta_path := dir ++ ["capture.json"]
  let direct := dir ++ ["cursor.jsonl"]
  let cursor? : Option FsPath :=
    if fsExists fs direct then some direct
    else (fs.find? (fun pr => pr.1.dropLast = dir ∧
      (pr.1.getLast?.getD "").endsWith "cursor.jsonl")).map (fun pr => pr.1)
  match cursor? with
  | none => ⟨.error "cursor_events_missing", fs, []⟩
  | some cursorPath =>
    match fsRead fs meta_path with
    | none => ⟨.error "capture_meta_missing", fs, [meta_path]⟩
    | some metaRaw =>
      match parseMeta metaRaw with
      | none => ⟨.error "capture_meta_parse_failed", fs, [meta_path]⟩
      | some meta =>
        let rect_w : ℚ := ((max meta.rect.width 1 : Int) : ℚ)
        let rect_h : ℚ := ((max meta.rect.height 1 : Int) : ℚ)
        let duration_ms := dur.getD 15000
        match fsRead fs cursorPath with
        | none => ⟨.error "cursor_read_failed", fs, [meta_path, cursorPath]⟩
        | some data =>
          let events := (data.splitOn "\n").filterMap parseEvent
          let track := buildZoomTrack rect_w rect_h duration_ms events
          ⟨.ok path, fsWrite fs path (serialize track),
            [meta_path, cursorPath]⟩

/-- `ensure_zoom_track` (lib.rs 2035-2043) over the explicit filesystem:
an existing `zoom_track.json` is returned as-is, otherwise the build
branch runs.  `parseMeta`, `parseEvent` and `serialize` stand for the
serde (de)serialisers; `dur` is the probed media duration
(`get_media_duration_ms`), defaulted to 15000 ms when unknown. -/
noncomputable def ensureZoomTrackM (parseMeta : String → Option CaptureMeta)
    (parseEvent : String → Option CursorEventRecord)
    (serialize : ZoomTrack → String) (dur : Option Nat)
    (fs : FS) (input : FsPath) : EnsureOutcome :=
  match parentOf input with
  | none => ⟨.error "invalid_input_path", fs, []⟩
  | some dir =>
    let path := dir ++ ["zoom_track.json"]
    if fsExists fs path then ⟨.ok path, fs, []⟩
    else buildZoomTrackFile parseMeta parseEvent serialize dur fs dir

/-! ## Helper lemmas -/

theorem lookupKey_upsert {β : Type} (m : List (String × β)) (k : String)
    (v : β) : lookupKey (upsert m k v) k = some v := by
  simp [lookupKey, upsert]

theorem lookupKey_updateKey {β : Type} (m : List (String × β)) (k : String)
    (f : β → β) (v : β) (h : lookupKey m k = some v) :
    lookupKey (updateKey m k f) k = some (f v) := by
  induction m with
  | nil => simp [lookupKey] at h
  | cons p rest ih =>
      by_cases hk : p.1 = k
      · have hv : p.2 = v := by
          simpa [lookupKey, List.find?, hk] using h
        subst hv
        simp [lookupKey, updateKey, List.find?, hk]
      · have h2 : lookupKey rest k = some v := by
          simpa [lookupKey, List.find?, hk] using h
        simpa [lookupKey, updateKey, List.find?, hk] using ih h2

/-! ## C2: region even-alignment error condition -/

/-- C2: `start_recording`'s region even-alignment bumps odd origins while
shrinking the matching dimension, floors both dimensions to even, and
fails with `invalid_region` exactly when a requested dimension is
non-positive or a dimension becomes non-positive after alignment. -/
theorem region_alignment_correct (r : CaptureRegion) :
    (alignRegion r = .error "invalid_region" ↔
      (r.width ≤ 0 ∨ r.height ≤ 0 ∨
        (alignRegionSpec r).width ≤ 0 ∨ (alignRegionSpec r).height ≤ 0)) ∧
    (¬(r.width ≤ 0 ∨ r.height ≤ 0 ∨
        (alignRegionSpec r).width ≤ 0 ∨ (alignRegionSpec r).height ≤ 0) →
      alignRegion r = .ok (alignRegionSpec r)) := by
  obtain ⟨x, y, w, h⟩ := r
  simp only [alignRegion, alignRegionSpec]
  split_ifs <;> simp_all <;> omega

/-- Witness for C2 at the already-even region (4, 4, 10, 10). -/
theorem region_alignment_correct_witness :
    alignRegion ⟨4, 4, 10, 10⟩ = .ok (alignRegionSpec ⟨4, 4, 10, 10⟩) :=
  (region_alignment_correct ⟨4, 4, 10, 10⟩).2 (by decide)

/-! ## C3: the concrete region (3, 5, 101, 100) -/

/-- C3 counterexample: the spec's scenario expects (4, 6, 100, 100), but
odd `y = 5` decrements the height to 99, which the even floor then lowers
to 98. -/
theorem region_c3_counterexample :
    alignRegion ⟨3, 5, 101, 100⟩ = .ok ⟨4, 6, 100, 98⟩ ∧
    (⟨4, 6, 100, 98⟩ : CaptureRegion) ≠ ⟨4, 6, 100, 100⟩ :=
  ⟨rfl, by decide⟩

/-- C3 amended: the region (x=3, y=5, w=101, h=100) normalises to
(x=4, y=6, w=100, h=98), and that is what reaches the encoder argv. -/
theorem region_c3_amended :
    alignRegion ⟨3, 5, 101, 100⟩ = .ok ⟨4, 6, 100, 98⟩ ∧
    regionArgs ⟨4, 6, 100, 98⟩ =
      ["-offset_x", "4", "-offset_y", "6", "-video_size", "100x98",
       "-i", "desktop"] :=
  ⟨rfl, rfl⟩

/-! ## C10: cancel_export never fails -/

/-- Behaviour of `cancelExport`, shared by the two cancellation claims:
it returns `Ok(())`, records the cancellation flag, leaves the status map
unchanged when the id is unknown, and flips an existing entry's state to
"cancelled". -/
theorem cancelExport_facts (m : ExportManager) (id : String) :
    ((cancelExport m id).2 = .ok ()) ∧
    (lookupKey (cancelExport m id).1.cancellations id = some true) ∧
    (lookupKey m.statuses id = none →
      (cancelExport m id).1.statuses = m.statuses) ∧
    (∀ st, lookupKey m.statuses id = some st →
      lookupKey (cancelExport m id).1.statuses id =
        some { st with state := "cancelled" }) := by
  refine ⟨?_, ?_, ?_, ?_⟩
  · simp only [cancelExport]
  · simp only [cancelExport]
    split <;> exact lookupKey_upsert _ _ _
  · intro h
    simp only [cancelExport, h]
  · intro st h
    simp only [cancelExport, h]
    exact lookupKey_updateKey _ _ _ _ h

/-- C10: `cancel_export` returns `Ok` for every id — including ids never
enqueued (leaving only a dangling cancellation flag) and ids of finished
jobs, whose stored state (even "completed") is overwritten to "cancelled";
it never returns `export_not_found`. -/
theorem cancel_export_total (m : ExportManager) (id : String) :
    ((cancelExport m id).2 = .ok ()) ∧
    (lookupKey (cancelExport m id).1.cancellations id = some true) ∧
    (lookupKey m.statuses id = none →
      (cancelExport m id).1.statuses = m.statuses) ∧
    (∀ st, lookupKey m.statuses id = some st →
      lookupKey (cancelExport m id).1.statuses id =
        some { st with state := "cancelled" }) :=
  cancelExport_facts m id

/-- Witness for C10: a completed status and an unknown id. -/
theorem cancel_export_total_witness :
    lookupKey (cancelExport
        ⟨[("7", ⟨"7", "completed", 1, none, some "a.mp4"⟩)], []⟩ "7").1.statuses
        "7" = some ⟨"7", "cancelled", 1, none, some "a.mp4"⟩ ∧
    (cancelExport ⟨[], []⟩ "ghost").2 = .ok () :=
  ⟨(cancel_export_total ⟨[("7", ⟨"7", "completed", 1, none, some "a.mp4"⟩)], []⟩
      "7").2.2.2 ⟨"7", "completed", 1, none, some "a.mp4"⟩ rfl,
   (cancel_export_total ⟨[], []⟩ "ghost").1⟩

/-! ## C8: cancellation flow -/

/-- C8: `cancel_export` sets the cancellation flag and flips the stored
status to "cancelled"; a running job's 120 ms polling loop that observes
the flag kills the child and returns `export_cancelled`; the worker then
records a final status with state "failed" and error "export_cancelled"
(preserving the last progress). -/
theorem cancel_export_flow :
    (∀ m id, (cancelExport m id).2 = .ok () ∧
      lookupKey (cancelExport m id).1.cancellations id = some true ∧
      ∀ st, lookupKey m.statuses id = some st →
        lookupKey (cancelExport m id).1.statuses id =
          some { st with state := "cancelled" }) ∧
    exportPollMs = 120 ∧
    (∀ (pre rest : List PollObs) (ob : PollObs),
      (∀ o ∈ pre, o.cancelled = false ∧ o.exited = none) →
      ob.cancelled = true →
      exportLoop (pre ++ ob :: rest) =
        some ⟨.error "export_cancelled", true⟩) ∧
    (∀ st, workerFinalize st (.error "export_cancelled") =
      { st with state := "failed", error := some "export_cancelled" }) ∧
    (∀ m id st, lookupKey (workerRecord m id st).statuses id = some st) := by
  refine ⟨fun m id => ⟨(cancelExport_facts m id).1,
      (cancelExport_facts m id).2.1, (cancelExport_facts m id).2.2.2⟩,
    rfl, ?_, ?_, ?_⟩
  · intro pre rest ob hpre hob
    induction pre with
    | nil => simp [exportLoop, hob]
    | cons o pre ih =>
        have ho := hpre o (by simp)
        simp only [List.cons_append, exportLoop, ho.1, Bool.false_eq_true,
          if_false, ho.2]
        exact ih (fun o ho2 => hpre o (by simp [ho2]))
  · intro st
    rfl
  · intro m id st
    exact lookupKey_upsert _ _ _

/-- Witness for C8: a running job at progress 2/5 whose stored status is
flipped to "cancelled" by the cancel call and that the loop kills on the
second poll iteration. -/
theorem cancel_export_flow_witness :
    lookupKey (cancelExport
        ⟨[("9", ⟨"9", "running", 2/5, none, some "o.mp4"⟩)], []⟩ "9").1.statuses
        "9" = some ⟨"9", "cancelled", 2/5, none, some "o.mp4"⟩ ∧
    exportLoop [⟨false, none⟩, ⟨true, none⟩] =
      some ⟨.error "export_cancelled", true⟩ ∧
    workerFinalize ⟨"9", "running", 2/5, none, some "o.mp4"⟩
        (.error "export_cancelled") =
      ⟨"9", "failed", 2/5, some "export_cancelled", some "o.mp4"⟩ :=
  ⟨(cancel_export_flow.1
      ⟨[("9", ⟨"9", "running", 2/5, none, some "o.mp4"⟩)], []⟩ "9").2.2
      ⟨"9", "running", 2/5, none, some "o.mp4"⟩ rfl,
   cancel_export_flow.2.2.1 [⟨false, none⟩] [] ⟨true, none⟩ (by simp) rfl,
   cancel_export_flow.2.2.2.1 ⟨"9", "running", 2/5, none, some "o.mp4"⟩⟩

/-! ## C5: flat track on an empty cursor log -/

/-- C5: with no parseable cursor events the track is flat — every frame
has zoom 1 and centre (0.5, 0.5) — and a zero-duration input yields the
single flat frame at time 0. -/
theorem flat_track_on_no_events (rw rh : ℚ) (d : Nat)
    (evs : List CursorEventRecord) (h : evs = []) :
    (∀ f ∈ (buildZoomTrack rw rh d evs).frames,
      f.zoom = 1 ∧ f.axn = 1/2 ∧ f.ayn = 1/2) ∧
    (d = 0 → (buildZoomTrack rw rh d evs).frames = [⟨0, 1/2, 1/2, 1⟩]) := by
  subst h
  constructor
  · intro f hf
    simp only [buildZoomTrack, buildZoomTrackFrames, if_true, reduceIte,
      flatFrames, List.mem_map, List.mem_range] at hf
    obtain ⟨i, -, rfl⟩ := hf
    exact ⟨rfl, rfl, rfl⟩
  · intro hd
    subst hd
    simp [buildZoomTrack, buildZoomTrackFrames, flatFrames, List.range_succ,
      frameTimeMs]

/-- Witness for C5 at duration 0. -/
theorem flat_track_on_no_events_witness :
    (buildZoomTrack 1 1 0 []).frames = [⟨0, 1/2, 1/2, 1⟩] :=
  (flat_track_on_no_events 1 1 0 [] rfl).2 rfl

/-! ## C4: sampling grid of the zoom track -/

/-- C4 counterexample: for a 1500 ms input with no cursor events the track
has 31 frames (indices 0..30), not the 46 frames (indices
0..⌈1.5 · 30⌉ = 45) the claim requires for every input. -/
theorem track_grid_counterexample :
    (buildZoomTrack 1 1 1500 []).frames.length = 31 ∧
    (⌈(1500 : ℚ) / (1000 / 30)⌉).toNat + 1 = 46 ∧ (31 : Nat) ≠ 46 := by
  refine ⟨?_, ?_, by decide⟩
  · simp [buildZoomTrack, buildZoomTrackFrames, flatFrames]
  · norm_num
    decide

/-- C4 amended: the track is built at `track.fps = 30` with frame `i` at
`round(i · 1000/fps)` ms; when cursor events exist the indices cover
`[0, ⌈duration_ms/(1000/fps)⌉]`, and when none exist they cover
`[0, (duration_ms/1000)·fps]` with integer division. -/
theorem track_sampling_grid (rw rh : ℚ) (d : Nat)
    (evs : List CursorEventRecord) :
    (buildZoomTrack rw rh d evs).fps = 30 ∧
    ((buildZoomTrack rw rh d evs).frames.map (fun f => f.time_ms) =
      (List.range ((buildZoomTrack rw rh d evs).frames.length)).map
        (frameTimeMs 30)) ∧
    (evs ≠ [] → (buildZoomTrack rw rh d evs).frames.length =
      (⌈(d : ℚ) / (1000 / 30)⌉).toNat + 1) ∧
    (evs = [] → (buildZoomTrack rw rh d evs).frames.length =
      (d / 1000) * 30 + 1) := by
  refine ⟨rfl, ?_, ?_, ?_⟩
  · cases evs with
    | nil =>
        simp [buildZoomTrack, buildZoomTrackFrames, flatFrames,
          List.map_map, Function.comp]
    | cons e rest =>
        simp [buildZoomTrack, buildZoomTrackFrames, windowedFrames,
          List.map_map, Function.comp]
  · intro h
    cases evs with
    | nil => exact absurd rfl h
    | cons e rest =>
        simp [buildZoomTrack, buildZoomTrackFrames, windowedFrames]
  · intro h
    subst h
    simp [buildZoomTrack, buildZoomTrackFrames, flatFrames]

/-- Witness for C4 on both branches: no events at 1500 ms, one event at
1000 ms. -/
theorem track_sampling_grid_witness :
    (buildZoomTrack 1 1 1500 []).frames.length = (1500 / 1000) * 30 + 1 ∧
    (buildZoomTrack 1 1 1000 [⟨"down", 0, 1/2, 1/2⟩]).frames.length =
      (⌈(1000 : ℚ) / (1000 / 30)⌉).toNat + 1 :=
  ⟨(track_sampling_grid 1 1 1500 []).2.2.2 rfl,
   (track_sampling_grid 1 1 1000 [⟨"down", 0, 1/2, 1/2⟩]).2.2.1 (by simp)⟩

/-! ## C6: follow threshold keeps the pan centre at the click point -/

/-- Along the path scan the accumulated path length only grows, and the
follow start is latched only at a point where the path has reached
160 px. -/
theorem followStep_foldl_invariant (rw rh : ℚ) (evs : List CursorEventRecord)
    (st : FollowState) :
    st.path ≤ (evs.foldl (followStep rw rh) st).path ∧
    ((evs.foldl (followStep rw rh) st).follow = st.follow ∨
      (160 : ℝ) ≤ (evs.foldl (followStep rw rh) st).path) := by
  induction evs generalizing st with
  | nil => exact ⟨le_refl _, Or.inl rfl⟩
  | cons ev rest ih =>
      have hstep : st.path ≤ (followStep rw rh st ev).path ∧
          ((followStep rw rh st ev).follow = st.follow ∨
            (160 : ℝ) ≤ (followStep rw rh st ev).path) := by
        unfold followStep
        dsimp only
        split_ifs with hmove hlatch
        · exact ⟨le_add_of_nonneg_right (Real.sqrt_nonneg _),
            Or.inr hlatch.2⟩
        · exact ⟨le_add_of_nonneg_right (Real.sqrt_nonneg _), Or.inl rfl⟩
        · exact ⟨le_refl _, Or.inl rfl⟩
      have hrest := ih (followStep rw rh st ev)
      simp only [List.foldl_cons]
      refine ⟨hstep.1.trans hrest.1, ?_⟩
      rcases hrest.2 with h1 | h1
      · rcases hstep.2 with h2 | h2
        · exact Or.inl (h1.trans h2)
        · exact Or.inr (le_trans h2 hrest.1)
      · exact Or.inr h1

/-- When the scan never reaches 160 px, no follow start is latched. -/
theorem followScan_below_threshold (rw rh : ℚ) (d : CursorEventRecord)
    (evs : List CursorEventRecord)
    (h : (followScan rw rh d evs).path < 160) :
    (followScan rw rh d evs).follow = none := by
  have := followStep_foldl_invariant rw rh evs ⟨0, d.axn, d.ayn, none⟩
  rcases this.2 with h1 | h1
  · exact h1
  · exact absurd h (not_lt.mpr h1)

/-- C6: in a window whose cumulative pointer path stays below the 160 px
follow threshold, every pan anchor carries the triggering down's point, so
each frame inside the window keeps the click point as centre while the
zoom still follows the ease envelope. -/
theorem follow_threshold_stationary_centre (rw rh : ℚ)
    (d : CursorEventRecord) (tl : List CursorEventRecord) (s e : ℚ)
    (hpath : (followScan rw rh d (tl.takeWhile
        (fun ev => ((ev.offset_ms : ℚ) / 1000) ≤ e))).path < 160) :
    (∀ a ∈ (mkWindow rw rh d tl s e).anchors,
      a.ax = d.axn ∧ a.ay = d.ayn) ∧
    (∀ t : ℚ, s ≤ t → t ≤ e →
      frameAt [mkWindow rw rh d tl s e] t =
        (d.axn, d.ayn, easeZoom s e t)) := by
  have hfollow := followScan_below_threshold rw rh d _ hpath
  have hanchors : (mkWindow rw rh d tl s e).anchors =
      [⟨s, d.axn, d.ayn⟩, ⟨e, d.axn, d.ayn⟩] := by
    simp [mkWindow, hfollow]
  constructor
  · intro a ha
    rw [hanchors] at ha
    simp only [List.mem_cons, List.not_mem_nil, or_false] at ha
    rcases ha with rfl | rfl
    · exact ⟨rfl, rfl⟩
    · exact ⟨rfl, rfl⟩
  · intro t hst hte
    have hpair : interpGo t (d.axn, d.ayn)
        [⟨s, d.axn, d.ayn⟩, ⟨e, d.axn, d.ayn⟩] = (d.axn, d.ayn) := by
      simp only [interpGo]
      rw [if_pos ⟨hst, hte⟩]
      rw [Prod.ext_iff]
      constructor
      · ring
      · ring
    have hcond : (mkWindow rw rh d tl s e).s ≤ t ∧
        t ≤ (mkWindow rw rh d tl s e).e := ⟨hst, hte⟩
    simp only [frameAt, List.find?]
    rw [decide_eq_true hcond]
    dsimp only
    rw [hanchors]
    simp only [interpAnchors]
    rw [hpair]
    rfl

/-- Witness for C6: a lone down at 1000 ms with no subsequent moves. -/
theorem follow_threshold_stationary_centre_witness :
    (160 : ℝ) > (followScan 1920 1080 ⟨"down", 1000, 3/10, 7/10⟩
      (([] : List CursorEventRecord).takeWhile
        (fun ev => ((ev.offset_ms : ℚ) / 1000) ≤ 6))).path ∧
    frameAt [mkWindow 1920 1080 ⟨"down", 1000, 3/10, 7/10⟩ [] 1 6] 2 =
      (3/10, 7/10, easeZoom 1 6 2) := by
  have hp : (followScan 1920 1080 ⟨"down", 1000, 3/10, 7/10⟩
      (([] : List CursorEventRecord).takeWhile
        (fun ev => ((ev.offset_ms : ℚ) / 1000) ≤ 6))).path < 160 := by
    simp [followScan]
  exact ⟨hp, (follow_threshold_stationary_centre 1920 1080
    ⟨"down", 1000, 3/10, 7/10⟩ [] 1 6 hp).2 2 (by norm_num) (by norm_num)⟩

/-! ## C1: two-click coalesce -/

theorem downsTail_map_fst (evs : List CursorEventRecord) :
    (downsTail evs).map Prod.fst =
      evs.filter (fun e => decide (e.kind = "down")) := by
  induction evs with
  | nil => rfl
  | cons ev rest ih =>
      by_cases h : ev.kind = "down" <;>
        simp [downsTail, List.filter_cons, h, ih]

theorem easeZoom_one_nine_in (t : ℚ) (h1 : 1 ≤ t) (h2 : t ≤ 3/2) :
    easeZoom 1 9 t = 1 + (2 - 1) * (1 - (1 - (t - 1) / (1/2))^3) := by
  rcases lt_or_eq_of_le h2 with hlt | heq
  · unfold easeZoom
    dsimp only
    rw [if_pos ⟨h1, by linarith⟩]
    have hu1 : (t - 1) / (1/2) ≤ 1 := by linarith
    have hu0 : (0 : ℚ) ≤ (t - 1) / (1/2) := by linarith
    rw [min_eq_right hu1, max_eq_right hu0]
  · subst heq
    norm_num [easeZoom]

theorem easeZoom_one_nine_flat (t : ℚ) (h1 : 3/2 ≤ t) (h2 : t ≤ 17/2) :
    easeZoom 1 9 t = 2 := by
  unfold easeZoom
  dsimp only
  have c1 : ¬((1 : ℚ) ≤ t ∧ t < 1 + 1/2) := fun hc => by linarith [hc.2]
  have c2 : ¬((9 : ℚ) - 1/2 < t ∧ t ≤ 9) := fun hc => by linarith [hc.1]
  rw [if_neg c1, if_neg c2]

theorem easeZoom_one_nine_out (t : ℚ) (h1 : 17/2 ≤ t) (h2 : t ≤ 9) :
    easeZoom 1 9 t = 1 + (2 - 1) * (1 - (1 - (9 - t) / (1/2))^3) := by
  rcases lt_or_eq_of_le h1 with hlt | heq
  · unfold easeZoom
    dsimp only
    have c1 : ¬((1 : ℚ) ≤ t ∧ t < 1 + 1/2) := fun hc => by linarith [hc.2]
    rw [if_neg c1, if_pos ⟨by linarith, h2⟩]
    have hu1 : (9 - t) / (1/2) ≤ 1 := by linarith
    have hu0 : (0 : ℚ) ≤ (9 - t) / (1/2) := by linarith
    rw [min_eq_right hu1, max_eq_right hu0]
  · subst heq
    norm_num [easeZoom]

theorem frameAt_single_out (w : Window) (t : ℚ)
    (h : ¬(w.s ≤ t ∧ t ≤ w.e)) : frameAt [w] t = (1/2, 1/2, 1) := by
  simp only [frameAt, List.find?]
  rw [decide_eq_false h]

theorem frameAt_single_in (w : Window) (t : ℚ) (h : w.s ≤ t ∧ t ≤ w.e) :
    frameAt [w] t = ((interpAnchors t w.anchors).1,
      (interpAnchors t w.anchors).2, easeZoom w.s w.e t) := by
  simp only [frameAt, List.find?]
  rw [decide_eq_true h]

/-- Zoom regimes of a single window spanning `[1, 9]`. -/
theorem zoom_regimes_single (w : Window) (hs : w.s = 1) (he : w.e = 9)
    (t : ℚ) :
    (t < 1 ∨ 9 < t → (frameAt [w] t).2.2 = 1) ∧
    (1 ≤ t ∧ t ≤ 3/2 → (frameAt [w] t).2.2 =
      1 + (2 - 1) * (1 - (1 - (t - 1) / (1/2))^3)) ∧
    (3/2 ≤ t ∧ t ≤ 17/2 → (frameAt [w] t).2.2 = 2) ∧
    (17/2 ≤ t ∧ t ≤ 9 → (frameAt [w] t).2.2 =
      1 + (2 - 1) * (1 - (1 - (9 - t) / (1/2))^3)) := by
  obtain ⟨ws, we, anc⟩ := w
  dsimp only at hs he
  subst hs
  subst he
  refine ⟨?_, ?_, ?_, ?_⟩
  · intro h
    have hout : ¬((1 : ℚ) ≤ t ∧ t ≤ 9) := by
      rcases h with h | h
      · exact fun hc => absurd hc.1 (not_le.mpr h)
      · exact fun hc => absurd hc.2 (not_le.mpr h)
    rw [frameAt_single_out ⟨1, 9, anc⟩ t hout]
  · intro h
    rw [frameAt_single_in ⟨1, 9, anc⟩ t
      ⟨h.1, show t ≤ (9 : ℚ) by linarith [h.2]⟩]
    exact easeZoom_one_nine_in t h.1 h.2
  · intro h
    rw [frameAt_single_in ⟨1, 9, anc⟩ t
      ⟨show (1 : ℚ) ≤ t by linarith [h.1], show t ≤ (9 : ℚ) by
        linarith [h.2]⟩]
    exact easeZoom_one_nine_flat t h.1 h.2
  · intro h
    rw [frameAt_single_in ⟨1, 9, anc⟩ t
      ⟨show (1 : ℚ) ≤ t by linarith [h.1], h.2⟩]
    exact easeZoom_one_nine_out t h.1 h.2

/-- C1: with downs at exactly 1000 ms and 4000 ms (and arbitrary
interleaved moves/ups), `ensure_zoom_track` coalesces a single window
spanning [1 s, 9 s]: frames before 1 s or after 9 s have zoom 1, the
ease-out cubic ramps on [1, 1.5], zoom stays at max_zoom = 2 on
[1.5, 8.5], and the mirrored ease runs on [8.5, 9]; the 4000 ms down only
extends the window without restarting the ramp. -/
theorem two_click_coalesce (rw rh : ℚ) (dur : Nat)
    (evs : List CursorEventRecord)
    (hd : (evs.filter (fun e => decide (e.kind = "down"))).map
        (fun e => e.offset_ms) = [1000, 4000]) :
    (((coalesceWindows rw rh (downsTail evs)).take 100).map
        (fun w => (w.s, w.e)) = [(1, 9)]) ∧
    (∀ f ∈ buildZoomTrackFrames rw rh dur evs,
      ((f.time_ms : ℚ) / 1000 < 1 ∨ 9 < (f.time_ms : ℚ) / 1000 →
        f.zoom = 1) ∧
      (1 ≤ (f.time_ms : ℚ) / 1000 ∧ (f.time_ms : ℚ) / 1000 ≤ 3/2 →
        f.zoom = 1 + (2 - 1) *
          (1 - (1 - ((f.time_ms : ℚ) / 1000 - 1) / (1/2))^3)) ∧
      (3/2 ≤ (f.time_ms : ℚ) / 1000 ∧ (f.time_ms : ℚ) / 1000 ≤ 17/2 →
        f.zoom = 2) ∧
      (17/2 ≤ (f.time_ms : ℚ) / 1000 ∧ (f.time_ms : ℚ) / 1000 ≤ 9 →
        f.zoom = 1 + (2 - 1) *
          (1 - (1 - (9 - (f.time_ms : ℚ) / 1000) / (1/2))^3))) := by
  have hmap : ((downsTail evs).map Prod.fst).map (fun e => e.offset_ms) =
      [1000, 4000] := by
    rw [downsTail_map_fst]
    exact hd
  rw [List.map_map] at hmap
  rcases hdt : downsTail evs with _ | ⟨⟨d1, t1⟩, l2⟩
  · rw [hdt] at hmap
    simp at hmap
  rcases l2 with _ | ⟨⟨d2, t2⟩, l3⟩
  · rw [hdt] at hmap
    simp at hmap
  rw [hdt] at hmap
  simp only [Function.comp, List.map_cons, List.cons.injEq] at hmap
  obtain ⟨h1, h2, h3⟩ := hmap
  have hl3 : l3 = [] := List.map_eq_nil_iff.mp h3
  subst hl3
  have hw : coalesceWindows rw rh [(d1, t1), (d2, t2)] =
      [mkWindow rw rh d1 t1 1 9] := by
    have e1 : ((d1.offset_ms : ℚ)) / 1000 = 1 := by
      rw [h1]; norm_num
    have e2 : ((d2.offset_ms : ℚ)) / 1000 = 4 := by
      rw [h2]; norm_num
    norm_num [coalesceWindows, coalesceGo, e1, e2]
  have htake : (coalesceWindows rw rh [(d1, t1), (d2, t2)]).take 100 =
      [mkWindow rw rh d1 t1 1 9] := by
    rw [hw]
    exact List.take_of_length_le (by simp)
  have hevs : evs ≠ [] := by
    intro h
    rw [h] at hd
    simp at hd
  refine ⟨?_, ?_⟩
  · rw [htake]
    rfl
  · intro f hf
    simp only [buildZoomTrackFrames, if_neg hevs, windowedFrames, hdt,
      htake, List.mem_map, List.mem_range] at hf
    obtain ⟨i, -, rfl⟩ := hf
    dsimp only
    exact zoom_regimes_single (mkWindow rw rh d1 t1 1 9) rfl rfl
      ((frameTimeMs 30 i : ℚ) / 1000)

/-- Witness for C1: just the two downs, no interleaved events. -/
theorem two_click_coalesce_witness :
    (((coalesceWindows 1920 1080 (downsTail
        [⟨"down", 1000, 1/2, 1/2⟩, ⟨"down", 4000, 1/2, 1/2⟩])).take 100).map
        (fun w => (w.s, w.e)) = [(1, 9)]) :=
  (two_click_coalesce 1920 1080 15000
    [⟨"down", 1000, 1/2, 1/2⟩, ⟨"down", 4000, 1/2, 1/2⟩] (by decide)).1

/-! ## C7: camera segment enable expression -/

theorem strAppendAssoc : ∀ a b c : String, a ++ b ++ c = a ++ (b ++ c) :=
  fun ⟨a⟩ ⟨b⟩ ⟨c⟩ => congrArg String.mk (List.append_assoc a b c)

/-- The camera track of the spec's scenario 5. -/
def segsC7 : List CameraSegment :=
  [⟨0, 5, true⟩, ⟨5, 10, false⟩, ⟨10, 20, true⟩]

/-- C7 counterexample: the source parenthesises each accumulated summand,
so the derived expression is not the claimed
`between(t,0,5)+between(t,10,20)`. -/
theorem camera_enable_counterexample :
    deriveCameraEnable segsC7 ≠ some "between(t,0,5)+between(t,10,20)" := by
  decide

/-- With a positive camera shadow, both compositing stages carry
`:enable=<expr>`. -/
theorem cameraOverlaySection_enable (fmtF : ℚ → String)
    (b cr : String) (cs cb : Int) (ca : ℚ) (co cx cy : Int) (E : String)
    (h : 0 < cs) :
    ∃ p1 p2 p3, cameraOverlaySection fmtF b cr cs cb ca co cx cy (some E) =
      p1 ++ (":enable=" ++ E) ++ p2 ++ (":enable=" ++ E) ++ p3 := by
  refine ⟨b ++ ";" ++ cr ++ ",split=2[cam][camshadow];[camshadow]boxblur="
      ++ toString cb ++ ":1,colorchannelmixer=aa=" ++ fmtF ca
      ++ "[camshadow];[base][camshadow]overlay=x=" ++ toString (cx + co)
      ++ ":y=" ++ toString (cy + co) ++ ":shortest=1",
    "[bg2];[bg2][cam]overlay=x=" ++ toString cx ++ ":y=" ++ toString cy
      ++ ":shortest=1",
    "[v]", ?_⟩
  unfold cameraOverlaySection
  dsimp only
  rw [if_pos h]
  simp only [strAppendAssoc]

/-- C7 amended: the derived camera enable expression for segments
[(0,5,visible), (5,10,hidden), (10,20,visible)] is
`(between(t,0,5))+(between(t,10,20))`; under the modelled `between`
semantics it evaluates to 0 at t = 7 s, so the camera overlay is absent
there; and whenever the edit state carries a positive camera shadow (the
default is 22), both camera overlay stages of the export filter receive
`:enable=<expr>`. -/
theorem camera_enable_amended (es : EditState) (profile : ExportProfile)
    (fmtF : ℚ → String) (zo : Option (String × String × String))
    (clip : Option String) (hshadow : 0 < es.camera_shadow) :
    deriveCameraEnable segsC7 = some "(between(t,0,5))+(between(t,10,20))" ∧
    cameraEnableVal segsC7 7 = 0 ∧
    ∃ p1 p2 p3,
      buildExportFilter fmtF es profile true zo
          (some "(between(t,0,5))+(between(t,10,20))") clip =
        p1 ++ (":enable=" ++ "(between(t,0,5))+(between(t,10,20))") ++ p2 ++
          (":enable=" ++ "(between(t,0,5))+(between(t,10,20))") ++ p3 := by
  refine ⟨by decide, by norm_num [cameraEnableVal, segsC7], ?_⟩
  unfold buildExportFilter
  dsimp only
  exact cameraOverlaySection_enable _ _ _ _ _ _ _ _ _ _
    (by exact_mod_cast hshadow)

/-- Witness for C7 at a concrete edit state and profile. -/
theorem camera_enable_amended_witness :
    (0 < (22 : Nat)) ∧ deriveCameraEnable segsC7 =
      some "(between(t,0,5))+(between(t,10,20))" :=
  ⟨by decide,
   (camera_enable_amended
      ⟨"16:9", 0, 12, 20, 168, "circle", 22, false, "gradient", 0,
        "bottom_left"⟩
      ⟨"h264", 1920, 1080, 30, 12000⟩ (fun _ => "") none none
      (by decide)).1⟩

/-! ## C9: ensure_zoom_track is idempotent -/

theorem fsExists_fsWrite (fs : FS) (p : FsPath) (c : String) :
    fsExists (fsWrite fs p c) p = true := by
  simp [fsExists, fsRead, fsWrite, List.find?]

/-- The fast path: an existing `zoom_track.json` is returned with no reads
and no filesystem change. -/
theorem ensureZoomTrackM_exists (pm : String → Option CaptureMeta)
    (pe : String → Option CursorEventRecord) (ser : ZoomTrack → String)
    (dur : Option Nat) (fs : FS) (input : FsPath) (dir : FsPath)
    (hdir : parentOf input = some dir)
    (hex : fsExists fs (dir ++ ["zoom_track.json"]) = true) :
    ensureZoomTrackM pm pe ser dur fs input =
      ⟨.ok (dir ++ ["zoom_track.json"]), fs, []⟩ := by
  unfold ensureZoomTrackM
  rw [hdir]
  simp only [hex, if_true]

/-- The build branch either fails leaving the filesystem untouched, or
returns the `zoom_track.json` path after writing it. -/
theorem buildZoomTrackFile_shape (pm : String → Option CaptureMeta)
    (pe : String → Option CursorEventRecord) (ser : ZoomTrack → String)
    (dur : Option Nat) (fs : FS) (dir : FsPath) :
    ((∃ e, (buildZoomTrackFile pm pe ser dur fs dir).res = .error e) ∧
      (buildZoomTrackFile pm pe ser dur fs dir).fs = fs) ∨
    ((buildZoomTrackFile pm pe ser dur fs dir).res =
        .ok (dir ++ ["zoom_track.json"]) ∧
      ∃ c, (buildZoomTrackFile pm pe ser dur fs dir).fs =
        fsWrite fs (dir ++ ["zoom_track.json"]) c) := by
  unfold buildZoomTrackFile
  dsimp only
  split
  · exact Or.inl ⟨⟨_, rfl⟩, rfl⟩
  · split
    · exact Or.inl ⟨⟨_, rfl⟩, rfl⟩
    · split
      · exact Or.inl ⟨⟨_, rfl⟩, rfl⟩
      · split
        · exact Or.inl ⟨⟨_, rfl⟩, rfl⟩
        · exact Or.inr ⟨rfl, ⟨_, rfl⟩⟩

/-- A successful build branch returns the `zoom_track.json` path and
leaves it present in the filesystem. -/
theorem buildZoomTrackFile_ok (pm : String → Option CaptureMeta)
    (pe : String → Option CursorEventRecord) (ser : ZoomTrack → String)
    (dur : Option Nat) (fs : FS) (dir : FsPath) (p : FsPath)
    (hp : (buildZoomTrackFile pm pe ser dur fs dir).res = .ok p) :
    p = dir ++ ["zoom_track.json"] ∧
    fsExists (buildZoomTrackFile pm pe ser dur fs dir).fs p = true := by
  rcases buildZoomTrackFile_shape pm pe ser dur fs dir with
    ⟨⟨e, he⟩, -⟩ | ⟨hres, c, hfs⟩
  · rw [he] at hp
    simp at hp
  · rw [hres] at hp
    simp only [Except.ok.injEq] at hp
    subst hp
    rw [hfs]
    exact ⟨rfl, fsExists_fsWrite _ _ _⟩

/-- Every successful call returns the directory's `zoom_track.json` path
and leaves that file present. -/
theorem ensureZoomTrackM_ok (pm : String → Option CaptureMeta)
    (pe : String → Option CursorEventRecord) (ser : ZoomTrack → String)
    (dur : Option Nat) (fs : FS) (input : FsPath) (p : FsPath)
    (hp : (ensureZoomTrackM pm pe ser dur fs input).res = .ok p) :
    ∃ dir, parentOf input = some dir ∧ p = dir ++ ["zoom_track.json"] ∧
      fsExists (ensureZoomTrackM pm pe ser dur fs input).fs
        (dir ++ ["zoom_track.json"]) = true := by
  cases hpar : parentOf input with
  | none =>
      unfold ensureZoomTrackM at hp
      rw [hpar] at hp
      simp at hp
  | some dir =>
      by_cases hex : fsExists fs (dir ++ ["zoom_track.json"]) = true
      · have heq := ensureZoomTrackM_exists pm pe ser dur fs input dir
          hpar hex
        rw [heq] at hp ⊢
        simp only [Except.ok.injEq] at hp
        subst hp
        exact ⟨dir, rfl, rfl, hex⟩
      · have heq : ensureZoomTrackM pm pe ser dur fs input =
            buildZoomTrackFile pm pe ser dur fs dir := by
          unfold ensureZoomTrackM
          rw [hpar]
          simp only [Bool.not_eq_true] at hex
          simp [hex]
        rw [heq] at hp ⊢
        obtain ⟨rfl, hfs⟩ := buildZoomTrackFile_ok pm pe ser dur fs dir p hp
        exact ⟨dir, rfl, rfl, hfs⟩

/-- C9: when `zoom_track.json` already exists the call returns its path
with no reads and no writes; in particular, after any successful call a
repeat call (with any parsers or probed duration) returns the same path
and leaves the filesystem untouched. -/
theorem ensure_zoom_track_idempotent
    (pm pm2 : String → Option CaptureMeta)
    (pe pe2 : String → Option CursorEventRecord)
    (ser ser2 : ZoomTrack → String) (dur dur2 : Option Nat)
    (fs : FS) (input : FsPath) :
    (∀ dir, parentOf input = some dir →
      fsExists fs (dir ++ ["zoom_track.json"]) = true →
      ensureZoomTrackM pm pe ser dur fs input =
        ⟨.ok (dir ++ ["zoom_track.json"]), fs, []⟩) ∧
    (∀ p, (ensureZoomTrackM pm pe ser dur fs input).res = .ok p →
      ensureZoomTrackM pm2 pe2 ser2 dur2
          (ensureZoomTrackM pm pe ser dur fs input).fs input =
        ⟨.ok p, (ensureZoomTrackM pm pe ser dur fs input).fs, []⟩) := by
  constructor
  · intro dir hdir hex
    exact ensureZoomTrackM_exists pm pe ser dur fs input dir hdir hex
  · intro p hp
    obtain ⟨dir, hdir, rfl, hfs⟩ := ensureZoomTrackM_ok pm pe ser dur fs
      input p hp
    exact ensureZoomTrackM_exists pm2 pe2 ser2 dur2 _ input dir hdir hfs

/-- Witness for C9: a one-file filesystem already holding the track. -/
theorem ensure_zoom_track_idempotent_witness :
    ensureZoomTrackM (fun _ => none) (fun _ => none) (fun _ => "")
        none [(["w", "1", "zoom_track.json"], "{}")]
        ["w", "1", "recording.mp4"] =
      ⟨.ok ["w", "1", "zoom_track.json"],
        [(["w", "1", "zoom_track.json"], "{}")], []⟩ :=
  (ensure_zoom_track_idempotent (fun _ => none) (fun _ => none)
      (fun _ => none) (fun _ => none) (fun _ => "") (fun _ => "")
      none none [(["w", "1", "zoom_track.json"], "{}")]
      ["w", "1", "recording.mp4"]).1 ["w", "1"] rfl (by decide)

end FlashRecorder
